import Mathlib

/-!
Verification of the webrtc-hub-example broadcaster (broadcast.go, whip.go).

The Go registry maps are modelled as functions into `Option` (content of a
Go map is exactly its lookup function); Go map insertion and deletion become
pointwise updates. UUIDs are modelled as `Nat`, track keys (StreamID+ID
concatenation) as `String`. Side effects of registry operations (spawned
rebalance goroutines, socket and connection closes, forwarder spawns) are
returned as an explicit effect list. Outcomes of external library calls
(track creation, offer creation, JSON marshalling, network reads and writes)
are inputs to the embedded functions, since the library is out of scope.
-/

namespace Hub

abbrev UUID := Nat
abbrev TrackKey := String

/-- Pointwise insert into a Go-map modelled as a lookup function. -/
def mapInsert {K V : Type} [DecidableEq K] (m : K → Option V) (k : K) (v : V) :
    K → Option V :=
  fun q => if q = k then some v else m q

/-- Pointwise delete from a Go-map modelled as a lookup function. -/
def mapDelete {K V : Type} [DecidableEq K] (m : K → Option V) (k : K) :
    K → Option V :=
  fun q => if q = k then none else m q

/-- A webrtc track local/remote: the fields the broadcaster reads
(`StreamID()` and `ID()`). -/
structure Track where
  streamID : String
  id : String
deriving DecidableEq

/-- The composite registry key `t.StreamID() + t.ID()` used in broadcast.go. -/
def trackKey (t : Track) : TrackKey := t.streamID ++ t.id

/-- `PeerSenderState` from broadcast.go: the ETag and an abstract handle for
the peer connection. -/
structure PeerSenderState where
  etag : String
  peerConn : Nat
deriving DecidableEq

/-- `ReceiverState` from broadcast.go: abstract handles for the peer
connection and the signaling websocket. -/
structure ReceiverState where
  connection : Nat
  signalSocket : Nat
deriving DecidableEq

/-- The three registry maps of `Broadcaster` (broadcast.go lines 45-52). -/
structure Broadcaster where
  peerSender : UUID → Option PeerSenderState
  senders : TrackKey → Option Track
  receivers : UUID → Option ReceiverState

/-- Observable side effects of a registry operation. -/
inductive Effect where
  | rebalance
  | spawnForwarder
  | closeSocket (status : Nat) (reason : String)
  | closeConnection
deriving DecidableEq

def StatusNormalClosure : Nat := 1000
def StatusGoingAway : Nat := 1001

/-- `NewBroadcaster`: all three maps empty. -/
def NewBroadcaster : Broadcaster :=
  { peerSender := fun _ => none
    senders := fun _ => none
    receivers := fun _ => none }

/-- `AddPeerSender` (broadcast.go 68-74): insert under a fresh id.  The
fresh uuid produced by `uuid.New()` is an input here. -/
def AddPeerSender (s : Broadcaster) (freshId : UUID) (peer : PeerSenderState) :
    Broadcaster × UUID :=
  ({ s with peerSender := mapInsert s.peerSender freshId peer }, freshId)

/-- `DeletePeerSender` (broadcast.go 75-79), embedded exactly as written:
the body is `delete(s.receivers, id)` — it deletes from the receivers map
and never touches the peerSender map. -/
def DeletePeerSender (s : Broadcaster) (id : UUID) : Broadcaster :=
  { s with receivers := mapDelete s.receivers id }

/-- `GetPeerSender` (broadcast.go 80-83). -/
def GetPeerSender (s : Broadcaster) (id : UUID) : Option PeerSenderState :=
  s.peerSender id

/-- `AddSender` (broadcast.go 85-118).  `createResult` is the outcome of
`webrtc.NewTrackLocalStaticRTP` (`none` models the error branch).  On
success the track is registered under its composite key, a forwarder
goroutine is spawned and a rebalance goroutine is spawned; the local track
is returned.  On failure the function returns nil with no state change and
no effect. -/
def AddSender (s : Broadcaster) (createResult : Option Track) :
    Broadcaster × Option Track × List Effect :=
  match createResult with
  | none => (s, none, [])
  | some trackLocal =>
      ({ s with senders := mapInsert s.senders (trackKey trackLocal) trackLocal },
       some trackLocal,
       [Effect.spawnForwarder, Effect.rebalance])

/-- `RemoveSender` (broadcast.go 132-144): early return when the composite
key is absent; otherwise delete the key and spawn a rebalance. -/
def RemoveSender (s : Broadcaster) (t : Track) : Broadcaster × List Effect :=
  match s.senders (trackKey t) with
  | none => (s, [])
  | some _ =>
      ({ s with senders := mapDelete s.senders (trackKey t) }, [Effect.rebalance])

/-- `RemoveReceiver` (broadcast.go 146-160): early return when the id is
absent; otherwise close the signal socket (normal closure, "Ending
operation") and the connection, delete the id, spawn a rebalance. -/
def RemoveReceiver (s : Broadcaster) (id : UUID) : Broadcaster × List Effect :=
  match s.receivers id with
  | none => (s, [])
  | some _ =>
      ({ s with receivers := mapDelete s.receivers id },
       [Effect.closeSocket StatusNormalClosure "Ending operation",
        Effect.closeConnection, Effect.rebalance])

/-! ## The forwarder loop (broadcast.go 101-114)

The goroutine spawned by `AddSender` loops: read from the remote track; on
read error call `RemoveSender` and return; otherwise write to the local
track, and return on a write error that is not `io.ErrClosedPipe`.  The
network outcomes of each iteration are inputs: a trace of
(read result, write result) pairs. -/

inductive ReadResult where
  | ok (len : Nat)
  | err
deriving DecidableEq

inductive WriteResult where
  | ok
  | errClosedPipe
  | errOther
deriving DecidableEq

/-- What one iteration of the forwarder loop does. -/
inductive StepAction where
  | loop
  | exitRemove
  | exitNoRemove
deriving DecidableEq

/-- One iteration of the forwarder loop: `t.Read` fails → `RemoveSender` and
return; `trackLocal.Write` fails with an error that is not
`io.ErrClosedPipe` → return; otherwise keep looping (an `ErrClosedPipe`
write error does not satisfy the `err != nil && !errors.Is(err,
io.ErrClosedPipe)` condition, so the loop continues). -/
def forwarderStep (r : ReadResult) (w : WriteResult) : StepAction :=
  match r with
  | ReadResult.err => StepAction.exitRemove
  | ReadResult.ok _ =>
      match w with
      | WriteResult.ok => StepAction.loop
      | WriteResult.errClosedPipe => StepAction.loop
      | WriteResult.errOther => StepAction.exitNoRemove

/-- Run the forwarder loop over a finite trace of network outcomes, acting
on broadcaster state `s` for its track `tl`.  Returns the state at exit and
whether the forwarder removed its track (called `RemoveSender`). -/
def runForwarder (s : Broadcaster) (tl : Track) :
    List (ReadResult × WriteResult) → Broadcaster × Bool
  | [] => (s, false)
  | (r, w) :: rest =>
      match forwarderStep r w with
      | StepAction.loop => runForwarder s tl rest
      | StepAction.exitRemove => ((RemoveSender s tl).1, true)
      | StepAction.exitNoRemove => (s, false)

/-- The first non-loop action of a forwarder trace, if any. -/
def firstExit : List (ReadResult × WriteResult) → Option StepAction
  | [] => none
  | (r, w) :: rest =>
      match forwarderStep r w with
      | StepAction.loop => firstExit rest
      | a => some a

/-! ## Distribution policies (broadcast.go 19-43)

The Go inner `map[string]bool` is modelled by its membership function
`TrackKey → Bool`, the outer map by a lookup function into `Option`. -/

/-- A freshly `make`d empty `map[string]bool`. -/
def emptySet : TrackKey → Bool := fun _ => false

/-- Insert the same value for every key of `rs` (the loops in `AllDist` and
`RRDist` that populate the output map receiver by receiver). -/
def insertAll {V : Type} (v : V) (rs : List UUID) (m : UUID → Option V) :
    UUID → Option V :=
  rs.foldl (fun acc r => mapInsert acc r v) m

/-- The inner loop of `AllDist`: `sendersMap[sender] = true` for every
sender, starting from an empty map. -/
def allSet (senders : List TrackKey) : TrackKey → Bool :=
  senders.foldl (fun sm sender => fun k => if k = sender then true else sm k)
    emptySet

/-- `AllDist` (broadcast.go 19-29): every receiver is mapped to the set of
all senders. -/
def AllDist (senders : List TrackKey) (receivers : List UUID) :
    UUID → Option (TrackKey → Bool) :=
  insertAll (allSet senders) receivers (fun _ => none)

/-- The indexed sender loop of `RRDist` (broadcast.go 39-41):
`outputMap[receivers[i % len(receivers)]][sender] = true`, read-modify-write
on the function-modelled map.  `i` is the index of the head of the remaining
sender list. -/
def rrLoop (rs : List UUID) :
    List TrackKey → Nat → (UUID → Option (TrackKey → Bool)) →
      UUID → Option (TrackKey → Bool)
  | [], _, m => m
  | t :: ts, i, m =>
      rrLoop rs ts (i + 1)
        (mapInsert m (rs.getD (i % rs.length) 0)
          (fun k =>
            if k = t then true
            else ((m (rs.getD (i % rs.length) 0)).getD emptySet) k))

/-- `RRDist` (broadcast.go 31-43): empty output when there are no
receivers; otherwise initialise every receiver to an empty set and
round-robin the senders over the receiver list. -/
def RRDist (senders : List TrackKey) (receivers : List UUID) :
    UUID → Option (TrackKey → Bool) :=
  if receivers.length = 0 then fun _ => none
  else rrLoop receivers senders 0 (insertAll emptySet receivers (fun _ => none))

/-! ## The reconcile loop of rebalanceReceivers (broadcast.go 185-235)

For each entry `(u, v)` of the policy output the loop diffs the tracks
attached to the receiver connection against `v`, removing and adding
tracks, then creates an offer, sets it as the local description, marshals
it and sends it on the signal socket.  The session-library outcomes for a
receiver are inputs. -/

/-- An SDP offer as produced by `CreateOffer`. -/
structure Offer where
  sdp : String
deriving DecidableEq

/-- Session-library outcomes for one receiver during a rebalance:
the tracks of `Connection.GetSenders()` (a sender's `Track()` may be nil),
the `CreateOffer` result (`none` models the error branch), whether
`SetLocalDescription` succeeds, and whether the two `json.Marshal` calls
succeed. -/
structure SessionEnv where
  attached : List (Option Track)
  createOffer : Option Offer
  setLocalOk : Bool
  marshalOfferOk : Bool
  marshalMessageOk : Bool

/-- Observable outcome of the loop body for one receiver. -/
structure ReconcileResult where
  removedTracks : List Track
  addedKeys : List TrackKey
  localDescSet : Option Offer
  sentOffer : Option Offer

/-- The per-receiver body of the reconcile loop (broadcast.go 186-234).
Tracks whose key is not in the target `v` are removed; target keys not
attached are added; then an offer is created (`continue` on error) and
`SetLocalDescription` is attempted — on failure the error is only logged,
the description is not installed, and the flow still proceeds — then the
offer is marshalled (`continue` on error twice) and sent as a text
message.  `localDescSet` records the description actually installed, so it
is `none` when `SetLocalDescription` fails. -/
def reconcileOne (v : List TrackKey) (env : SessionEnv) : ReconcileResult :=
  let present := env.attached.filterMap id
  let existing := present.map trackKey
  let removed := present.filter (fun t => !(v.contains (trackKey t)))
  let added := v.filter (fun k => !(existing.contains k))
  match env.createOffer with
  | none =>
      { removedTracks := removed, addedKeys := added
        localDescSet := none, sentOffer := none }
  | some offer =>
      let installed := if env.setLocalOk then some offer else none
      if env.marshalOfferOk then
        if env.marshalMessageOk then
          { removedTracks := removed, addedKeys := added
            localDescSet := installed, sentOffer := some offer }
        else
          { removedTracks := removed, addedKeys := added
            localDescSet := installed, sentOffer := none }
      else
        { removedTracks := removed, addedKeys := added
          localDescSet := installed, sentOffer := none }

/-- The `for u, v := range match` loop: reconcile every receiver in the
policy output (given here as a list of pairs), with `env u` the session
outcomes of receiver `u`. -/
def rebalanceLoop (assignment : List (UUID × List TrackKey))
    (env : UUID → SessionEnv) : List (UUID × ReconcileResult) :=
  assignment.map (fun p => (p.1, reconcileOne p.2 (env p.1)))

/-! ## whip.go handlers -/

/-- `whipHandler` (whip.go 16-93), with the webrtc negotiation outcomes
abstracted: a request whose content-type is not `application/sdp` is
rejected with 406 before anything is created; otherwise the publisher state
is registered via `AddPeerSender` under a fresh id and 201 is returned. -/
def whipHandler (s : Broadcaster) (contentType : String) (freshId : UUID)
    (etag : String) (peerConn : Nat) : Broadcaster × Nat :=
  if contentType ≠ "application/sdp" then (s, 406)
  else
    ((AddPeerSender s freshId { etag := etag, peerConn := peerConn }).1, 201)

/-! ## Helper lemmas -/

theorem mapInsert_eq {K V : Type} [DecidableEq K] (m : K → Option V) (k : K)
    (v : V) : mapInsert m k v k = some v := by
  simp [mapInsert]

theorem mapInsert_ne {K V : Type} [DecidableEq K] (m : K → Option V) (k q : K)
    (v : V) (h : q ≠ k) : mapInsert m k v q = m q := by
  simp [mapInsert, h]

theorem insertAll_eq {V : Type} (v : V) (rs : List UUID)
    (m : UUID → Option V) (u : UUID) :
    insertAll v rs m u = if u ∈ rs then some v else m u := by
  induction rs generalizing m with
  | nil => simp [insertAll]
  | cons r rs ih =>
      show insertAll v rs (mapInsert m r v) u = _
      rw [ih]
      by_cases h : u ∈ rs
      · simp [h]
      · by_cases h2 : u = r <;> simp [h, h2, mapInsert]

theorem allSet_fold_mem (senders : List TrackKey) (m : TrackKey → Bool)
    (k : TrackKey) :
    (senders.foldl (fun sm sender => fun q => if q = sender then true else sm q)
        m) k = true ↔ k ∈ senders ∨ m k = true := by
  induction senders generalizing m with
  | nil => simp
  | cons t ts ih =>
      show (ts.foldl _ (fun q => if q = t then true else m q)) k = true ↔ _
      rw [ih]
      by_cases h : k = t <;> simp [h, or_assoc, or_comm]

theorem allSet_mem (senders : List TrackKey) (k : TrackKey) :
    allSet senders k = true ↔ k ∈ senders := by
  rw [allSet, allSet_fold_mem]
  simp [emptySet]

theorem getD_mem_of_lt {rs : List UUID} {j : Nat} (h : j < rs.length) :
    rs.getD j 0 ∈ rs := by
  rw [List.getD_eq_getElem rs 0 h]
  exact List.getElem_mem h

theorem rrLoop_notMem (rs : List UUID) (hrs : 0 < rs.length)
    (ts : List TrackKey) (i : Nat) (m : UUID → Option (TrackKey → Bool))
    (u : UUID) (hu : u ∉ rs) :
    rrLoop rs ts i m u = m u := by
  induction ts generalizing i m with
  | nil => rfl
  | cons t ts ih =>
      show rrLoop rs ts (i + 1) _ u = m u
      rw [ih]
      exact mapInsert_ne _ _ _ _
        (fun h => hu (h ▸ getD_mem_of_lt (Nat.mod_lt i hrs)))

theorem rrLoop_mem (rs : List UUID) (hrs : 0 < rs.length)
    (ts : List TrackKey) (i : Nat) (m : UUID → Option (TrackKey → Bool))
    (hm : ∀ w, w ∈ rs → (m w).isSome) (u : UUID) (hu : u ∈ rs) :
    ∃ g, rrLoop rs ts i m u = some g ∧
      ∀ k, g k = true ↔ ((m u).getD emptySet) k = true ∨
        ∃ j, j < ts.length ∧ ts.getD j "" = k ∧
          rs.getD ((i + j) % rs.length) 0 = u := by
  induction ts generalizing i m with
  | nil =>
      obtain ⟨f, hf⟩ := Option.isSome_iff_exists.mp (hm u hu)
      exact ⟨f, hf, fun k => by simp [hf]⟩
  | cons t ts ih =>
      have hrmem : rs.getD (i % rs.length) 0 ∈ rs :=
        getD_mem_of_lt (Nat.mod_lt i hrs)
      have hm2 : ∀ w, w ∈ rs →
          ((mapInsert m (rs.getD (i % rs.length) 0)
            (fun k => if k = t then true
              else ((m (rs.getD (i % rs.length) 0)).getD emptySet) k)) w).isSome := by
        intro w hw
        by_cases hwr : w = rs.getD (i % rs.length) 0
        · simp [mapInsert, hwr]
        · rw [mapInsert_ne _ _ _ _ hwr]
          exact hm w hw
      obtain ⟨g, hg, hgk⟩ := ih (i + 1) _ hm2
      refine ⟨g, hg, fun k => ?_⟩
      rw [hgk k]
      by_cases hur : u = rs.getD (i % rs.length) 0
      case pos =>
        have hins : (mapInsert m (rs.getD (i % rs.length) 0)
            (fun q => if q = t then true
              else ((m (rs.getD (i % rs.length) 0)).getD emptySet) q)) u
            = some (fun q => if q = t then true
              else ((m (rs.getD (i % rs.length) 0)).getD emptySet) q) := by
          rw [hur]
          exact mapInsert_eq _ _ _
        rw [hins]
        simp only [Option.getD_some]
        constructor
        · rintro (h | ⟨j, hj, hts, hru⟩)
          · by_cases hkt : k = t
            · refine Or.inr ⟨0, by simp, by simp [hkt], ?_⟩
              simpa using hur.symm
            · rw [if_neg hkt, ← hur] at h
              exact Or.inl h
          · refine Or.inr ⟨j + 1, by simp only [List.length_cons]; omega,
              by simpa using hts, ?_⟩
            rw [show i + (j + 1) = i + 1 + j by omega]
            exact hru
        · rintro (h | ⟨j, hj, hts, hru⟩)
          · by_cases hkt : k = t
            · exact Or.inl (by rw [if_pos hkt])
            · refine Or.inl ?_
              rw [if_neg hkt, ← hur]
              exact h
          · rcases j with _ | j
            · simp only [List.getD_cons_zero] at hts
              refine Or.inl ?_
              rw [if_pos hts.symm]
            · refine Or.inr ⟨j, by simp only [List.length_cons] at hj; omega,
                by simpa using hts, ?_⟩
              rw [show i + 1 + j = i + (j + 1) by omega]
              exact hru
      case neg =>
        rw [mapInsert_ne _ _ _ _ hur]
        constructor
        · rintro (h | ⟨j, hj, hts, hru⟩)
          · exact Or.inl h
          · refine Or.inr ⟨j + 1, by simp only [List.length_cons]; omega,
              by simpa using hts, ?_⟩
            rw [show i + (j + 1) = i + 1 + j by omega]
            exact hru
        · rintro (h | ⟨j, hj, hts, hru⟩)
          · exact Or.inl h
          · rcases j with _ | j
            · rw [Nat.add_zero] at hru
              exact absurd hru.symm hur
            · refine Or.inr ⟨j, by simp only [List.length_cons] at hj; omega,
                by simpa using hts, ?_⟩
              rw [show i + 1 + j = i + (j + 1) by omega]
              exact hru

theorem removeSender_key_none (s : Broadcaster) (tl : Track) :
    (RemoveSender s tl).1.senders (trackKey tl) = none := by
  cases h : s.senders (trackKey tl) <;> simp [RemoveSender, h, mapDelete]

theorem runForwarder_spec (s : Broadcaster) (tl : Track) :
    ∀ trace : List (ReadResult × WriteResult),
      ((runForwarder s tl trace).2 = true ↔
        firstExit trace = some StepAction.exitRemove)
    ∧ ((runForwarder s tl trace).2 = true →
        (runForwarder s tl trace).1 = (RemoveSender s tl).1)
    ∧ ((runForwarder s tl trace).2 = false → (runForwarder s tl trace).1 = s)
  | [] => by simp [runForwarder, firstExit]
  | (r, w) :: rest => by
      cases h : forwarderStep r w with
      | loop =>
          have ih := runForwarder_spec s tl rest
          simp only [runForwarder, firstExit, h]
          exact ih
      | exitRemove => simp [runForwarder, firstExit, h]
      | exitNoRemove => simp [runForwarder, firstExit, h]

/-! ## The claims -/

/-- The registry state used to exhibit the C1 divergence: the id 7 is a
registered publisher and, separately, a registered receiver. -/
def c1State : Broadcaster :=
  { peerSender := mapInsert (fun _ => none) 7 { etag := "tag-7", peerConn := 3 }
    senders := fun _ => none
    receivers := mapInsert (fun _ => none) 7 { connection := 4, signalSocket := 5 } }

/-- C1: the claim says that after `DeletePeerSender(id)` the peerSender map
no longer contains `id` and the receivers map is unchanged.  The code does
the opposite: `DeletePeerSender` executes `delete(s.receivers, id)`, so the
publisher record survives and the receivers map loses `id`.  This theorem
evaluates the embedded code at a state where id 7 is registered in both
maps: afterwards the publisher entry is still present and the receiver
entry is gone. -/
theorem deletePeerSender_wrong_map :
    (DeletePeerSender c1State 7).peerSender 7
        = some { etag := "tag-7", peerConn := 3 }
    ∧ (DeletePeerSender c1State 7).receivers 7 = none
    ∧ c1State.receivers 7 = some { connection := 4, signalSocket := 5 } := by
  exact ⟨rfl, rfl, rfl⟩

/-- C2: `RRDist` maps exactly the subscriber ids of the input (any id not
in the list is absent, every id in the list has an entry), the entry of a
subscriber `u` contains exactly the track keys whose index `i` in the
sender list satisfies `receivers[i mod S] = u` (so a subscriber hit by no
index keeps an empty set), and with zero subscribers the output map is
empty. -/
theorem RRDist_round_robin (senders : List TrackKey) (receivers : List UUID)
    (u : UUID) :
    (receivers.length = 0 → RRDist senders receivers u = none)
  ∧ (u ∉ receivers → RRDist senders receivers u = none)
  ∧ (u ∈ receivers → ∃ f, RRDist senders receivers u = some f ∧
      ∀ k, f k = true ↔ ∃ i, i < senders.length ∧ senders.getD i "" = k ∧
        receivers.getD (i % receivers.length) 0 = u) := by
  refine ⟨?_, ?_, ?_⟩
  · intro h
    rw [RRDist, if_pos h]
  · intro hu
    by_cases h : receivers.length = 0
    · rw [RRDist, if_pos h]
    · rw [RRDist, if_neg h]
      have hrs : 0 < receivers.length := Nat.pos_of_ne_zero h
      rw [rrLoop_notMem receivers hrs senders 0 _ u hu, insertAll_eq]
      simp [hu]
  · intro hu
    have h : ¬ receivers.length = 0 := by
      intro h0
      rw [List.length_eq_zero] at h0
      subst h0
      simp at hu
    have hrs : 0 < receivers.length := Nat.pos_of_ne_zero h
    have hm : ∀ w, w ∈ receivers →
        ((insertAll emptySet receivers (fun _ => none)) w).isSome := by
      intro w hw
      rw [insertAll_eq]
      simp [hw]
    obtain ⟨g, hg, hgk⟩ := rrLoop_mem receivers hrs senders 0 _ hm u hu
    refine ⟨g, ?_, fun k => ?_⟩
    · rw [RRDist, if_neg h]
      exact hg
    · rw [hgk k]
      have hini : (insertAll emptySet receivers (fun _ => none)) u
          = some emptySet := by
        rw [insertAll_eq]
        simp [hu]
      rw [hini]
      simp only [Option.getD_some, emptySet]
      constructor
      · rintro (h2 | ⟨j, hj, hts, hru⟩)
        · exact absurd h2 (by simp)
        · exact ⟨j, hj, hts, by simpa using hru⟩
      · rintro ⟨j, hj, hts, hru⟩
        exact Or.inr ⟨j, hj, hts, by simpa using hru⟩

/-- C2 witness: three tracks round-robined over the two subscribers 1 and 2;
subscriber 1 gets the tracks at indices 0 and 2 and not the one at index 1,
and an id not in the subscriber list has no entry. -/
theorem RRDist_round_robin_witness :
    (∃ f, RRDist ["A", "B", "C"] [1, 2] 1 = some f ∧ f "A" = true ∧
      f "C" = true ∧ f "B" = false)
    ∧ RRDist ["A", "B", "C"] [1, 2] 7 = none
    ∧ RRDist ["A", "B", "C"] [] 1 = none := by
  refine ⟨?_, (RRDist_round_robin ["A", "B", "C"] [1, 2] 7).2.1 (by decide),
    (RRDist_round_robin ["A", "B", "C"] [] 1).1 (by decide)⟩
  obtain ⟨f, hf, hiff⟩ :=
    (RRDist_round_robin ["A", "B", "C"] [1, 2] 1).2.2 (by decide)
  refine ⟨f, hf, ?_, ?_, ?_⟩
  · exact (hiff "A").mpr ⟨0, by decide, by decide, by decide⟩
  · exact (hiff "C").mpr ⟨2, by decide, by decide, by decide⟩
  · rcases Bool.eq_false_or_eq_true (f "B") with h | h
    · obtain ⟨i, hi, hsi, hri⟩ := (hiff "B").mp h
      have hi3 : i < 3 := by simpa using hi
      interval_cases i
      · exact absurd hsi (by decide)
      · exact absurd hri (by decide)
      · exact absurd hsi (by decide)
    · exact h

/-- C3 counterexample: the claim says a write error equal to
`io.ErrClosedPipe` makes the forwarder exit.  In the code the exit
condition is `err != nil && !errors.Is(err, io.ErrClosedPipe)`, so on
`ErrClosedPipe` the iteration neither exits-with-removal nor
exits-silently: it loops. -/
theorem forwarder_closed_pipe_loops :
    ¬ (forwarderStep (ReadResult.ok 10) WriteResult.errClosedPipe
          = StepAction.exitRemove
      ∨ forwarderStep (ReadResult.ok 10) WriteResult.errClosedPipe
          = StepAction.exitNoRemove) := by
  decide

/-- C3 amended: on a write error equal to `io.ErrClosedPipe` the forwarder
treats it as benign and continues the loop; on any other write error it
exits without removing the track (the removed-flag of the run is false and
the registry state is returned unchanged). -/
theorem forwarder_write_error_behaviour (n : Nat) (s : Broadcaster)
    (tl : Track) (rest : List (ReadResult × WriteResult)) :
    forwarderStep (ReadResult.ok n) WriteResult.errClosedPipe = StepAction.loop
  ∧ runForwarder s tl ((ReadResult.ok n, WriteResult.errClosedPipe) :: rest)
      = runForwarder s tl rest
  ∧ forwarderStep (ReadResult.ok n) WriteResult.errOther
      = StepAction.exitNoRemove
  ∧ runForwarder s tl ((ReadResult.ok n, WriteResult.errOther) :: rest)
      = (s, false) :=
  ⟨rfl, rfl, rfl, rfl⟩

/-- C4: an iteration of the forwarder calls `RemoveSender` and exits exactly
when the read fails; over any finite trace of network outcomes the
forwarder removes its track exactly when the first exiting iteration is a
read error, in which case the resulting registry state is that of
`RemoveSender` (whose key is then absent); on every other path the registry
is left untouched. -/
theorem forwarder_read_error_removal (s : Broadcaster) (tl : Track)
    (r : ReadResult) (w : WriteResult)
    (trace : List (ReadResult × WriteResult)) :
    (forwarderStep r w = StepAction.exitRemove ↔ r = ReadResult.err)
  ∧ ((runForwarder s tl trace).2 = true ↔
      firstExit trace = some StepAction.exitRemove)
  ∧ ((runForwarder s tl trace).2 = true →
      (runForwarder s tl trace).1 = (RemoveSender s tl).1
      ∧ (runForwarder s tl trace).1.senders (trackKey tl) = none)
  ∧ ((runForwarder s tl trace).2 = false → (runForwarder s tl trace).1 = s) := by
  obtain ⟨h1, h2, h3⟩ := runForwarder_spec s tl trace
  refine ⟨?_, h1, fun ht => ⟨h2 ht, ?_⟩, h3⟩
  · cases r <;> cases w <;> simp [forwarderStep]
  · rw [h2 ht]
    exact removeSender_key_none s tl

/-- C5: `RemoveSender` on a composite key that is not registered is a
no-op (same state, no effects); on a registered key it deletes exactly that
key from the senders map, leaves the other two maps untouched, and spawns a
rebalance. -/
theorem removeSender_noop_or_delete (s : Broadcaster) (t : Track) :
    (s.senders (trackKey t) = none → RemoveSender s t = (s, []))
  ∧ ((s.senders (trackKey t)).isSome →
      (RemoveSender s t).1.senders (trackKey t) = none
    ∧ (∀ k, k ≠ trackKey t → (RemoveSender s t).1.senders k = s.senders k)
    ∧ (RemoveSender s t).1.peerSender = s.peerSender
    ∧ (RemoveSender s t).1.receivers = s.receivers
    ∧ (RemoveSender s t).2 = [Effect.rebalance]) := by
  constructor
  · intro h
    simp [RemoveSender, h]
  · intro h
    obtain ⟨tl, htl⟩ := Option.isSome_iff_exists.mp h
    refine ⟨?_, ?_, ?_, ?_, ?_⟩
    · simp [RemoveSender, htl, mapDelete]
    · intro k hk
      simp [RemoveSender, htl, mapDelete, hk]
    · simp [RemoveSender, htl]
    · simp [RemoveSender, htl]
    · simp [RemoveSender, htl]

/-- C5 witness: removing a track from an empty registry changes nothing and
spawns nothing. -/
theorem removeSender_noop_or_delete_witness :
    RemoveSender NewBroadcaster { streamID := "s", id := "A" }
      = (NewBroadcaster, []) :=
  (removeSender_noop_or_delete NewBroadcaster { streamID := "s", id := "A" }).1 rfl

/-- C6: in the reconcile loop of `rebalanceReceivers`, every receiver of
the policy output whose session operations succeed (`CreateOffer`,
`SetLocalDescription` and the two marshals) gets the offer installed as its
local description and sent on its signal socket.  Nothing in the
hypotheses constrains the diff between attached tracks and the target set:
the conclusion holds for every list of attached tracks, in particular when
no track is removed or added, so the send is not skipped on an unchanged
track set. -/
theorem rebalance_offer_always_sent (assignment : List (UUID × List TrackKey))
    (env : UUID → SessionEnv) (u : UUID) (v : List TrackKey) (o : Offer)
    (hmem : (u, v) ∈ assignment)
    (hoff : (env u).createOffer = some o)
    (hset : (env u).setLocalOk = true)
    (hm1 : (env u).marshalOfferOk = true)
    (hm2 : (env u).marshalMessageOk = true) :
    ∃ res, (u, res) ∈ rebalanceLoop assignment env ∧
      res.localDescSet = some o ∧ res.sentOffer = some o := by
  refine ⟨reconcileOne v (env u), ?_, ?_, ?_⟩
  · exact List.mem_map.mpr ⟨(u, v), hmem, rfl⟩
  · simp [reconcileOne, hoff, hset, hm1, hm2]
  · simp [reconcileOne, hoff, hset, hm1, hm2]

/-- A track and a session environment for the C6 witness: the single
attached track is exactly the single target track, so the diff is empty,
and all session operations succeed. -/
def trackA : Track := { streamID := "s", id := "A" }

def envWitness : UUID → SessionEnv := fun _ =>
  { attached := [some trackA]
    createOffer := some { sdp := "offer-sdp" }
    setLocalOk := true
    marshalOfferOk := true
    marshalMessageOk := true }

/-- C6 witness: one receiver whose attached tracks already equal the target
(empty diff) still gets the offer installed and sent. -/
theorem rebalance_offer_always_sent_witness :
    ∃ res, (1, res) ∈ rebalanceLoop [(1, [trackKey trackA])] envWitness ∧
      res.localDescSet = some { sdp := "offer-sdp" } ∧
      res.sentOffer = some { sdp := "offer-sdp" } :=
  rebalance_offer_always_sent [(1, [trackKey trackA])] envWitness 1
    [trackKey trackA] { sdp := "offer-sdp" } (by simp) rfl rfl rfl rfl

/-- C7: `AllDist` gives every subscriber id of the input an entry, each
entry holding exactly the full input track-key set; ids not in the input
have no entry.  The function is a pure Lean function of the two input
lists, so it is total and deterministic by construction. -/
theorem allDist_all_tracks (senders : List TrackKey) (receivers : List UUID)
    (u : UUID) :
    (u ∈ receivers → AllDist senders receivers u = some (allSet senders)
      ∧ ∀ k, allSet senders k = true ↔ k ∈ senders)
  ∧ (u ∉ receivers → AllDist senders receivers u = none) := by
  constructor
  · intro hu
    refine ⟨?_, fun k => allSet_mem senders k⟩
    rw [AllDist, insertAll_eq]
    simp [hu]
  · intro hu
    rw [AllDist, insertAll_eq]
    simp [hu]

/-- C7 witness: with tracks A, B and subscribers 1, 2, subscriber 1 has an
entry containing both tracks and the unknown id 7 has none. -/
theorem allDist_all_tracks_witness :
    AllDist ["A", "B"] [1, 2] 1 = some (allSet ["A", "B"])
    ∧ allSet ["A", "B"] "A" = true
    ∧ allSet ["A", "B"] "B" = true
    ∧ AllDist ["A", "B"] [1, 2] 7 = none := by
  obtain ⟨h1, h2⟩ := (allDist_all_tracks ["A", "B"] [1, 2] 1).1 (by decide)
  exact ⟨h1, (h2 "A").mpr (by decide), (h2 "B").mpr (by decide),
    (allDist_all_tracks ["A", "B"] [1, 2] 7).2 (by decide)⟩

/-- C8: a publisher ingest request whose content type is not
`application/sdp` is answered with 406 and the registry is returned
unchanged, so no publisher record is created. -/
theorem whipHandler_bad_content_type (s : Broadcaster) (ct : String)
    (freshId : UUID) (etag : String) (peerConn : Nat)
    (h : ct ≠ "application/sdp") :
    whipHandler s ct freshId etag peerConn = (s, 406) := by
  simp [whipHandler, h]

/-- C8 witness: ingest with content type `text/plain` against the empty
registry returns 406 and the same registry. -/
theorem whipHandler_bad_content_type_witness :
    whipHandler NewBroadcaster "text/plain" 1 "etag-1" 0
      = (NewBroadcaster, 406) :=
  whipHandler_bad_content_type NewBroadcaster "text/plain" 1 "etag-1" 0
    (by decide)

/-- C9: when the local track creation inside `AddSender` fails, `AddSender`
returns nil with the registry unchanged, no forwarder spawned and no
rebalance spawned. -/
theorem addSender_create_failure_noop (s : Broadcaster) :
    AddSender s none = (s, none, []) := rfl

/-- C10: `RemoveReceiver` on an id that is not in the receivers map returns
the state unchanged with no effects: nothing is closed, no map changes, no
rebalance is spawned. -/
theorem removeReceiver_absent_noop (s : Broadcaster) (id : UUID)
    (h : s.receivers id = none) :
    RemoveReceiver s id = (s, []) := by
  simp [RemoveReceiver, h]

/-- C10 witness: removing the unknown receiver 5 from the empty registry is
a no-op. -/
theorem removeReceiver_absent_noop_witness :
    RemoveReceiver NewBroadcaster 5 = (NewBroadcaster, []) :=
  removeReceiver_absent_noop NewBroadcaster 5 rfl

end Hub
